import Mathlib

/-!
Shallow embedding of `refman` (package `main`, file `main.go` of the
current revision, the one whose `go.mod` requires `pdfcpu`): a CLI tool
that ingests PDF documents into a bleve full-text index and queries it.

External capabilities (the bleve index store, the pdfcpu extractor, the
bibtex parser, `filepath.Abs`) are modelled as oracle inputs passed in a
`World`; the repository's own control flow (`main`, `addEntry`,
`parseDocument`, `openIndex`) is translated function by function.
Observable effects (store operations, stdout, stderr) are collected in a
`Trace`.
-/

deriving instance DecidableEq for Except

namespace Refman

/-- Opaque result of `bibtex.Parse` (external capability): the embedding
only needs that it is some structured value carried into the `Document`. -/
structure BibTex where
  raw : String
deriving DecidableEq, Repr

/-- `type Document struct { Ref *bibtex.BibTex; Txt string }`.
The nil pointer is `Option.none`. -/
structure Document where
  ref : Option BibTex
  txt : String
deriving DecidableEq, Repr

/-- Error categories for the oracle results.  `openNotExist` stands for the
error `bleve.Open` returns on a missing path, `corrupt` for any other open
failure (unreadable or damaged store), `indexPathExists` for the error
`bleve.New` returns when the target path already exists. -/
inductive Err
  | openNotExist
  | corrupt
  | indexPathExists
  | pdfReadErr
  | pageCountErr
  | pageExtractErr
  | bibOpenErr
  | bibParseErr
  | absErr
  | searchErr
deriving DecidableEq, Repr

/-- `true` on `Except.ok`. -/
def exOk {α : Type} : Except Err α → Bool
  | .ok _ => true
  | .error _ => false

/-- Outcome of `ctx.ExtractPageContent(i)` followed by `io.Copy` for one
page: `err` covers an extraction or copy error (either makes
`parseDocument` return that error), `nilReader` is a `nil` reader (the
`continue` branch), `txt s` is extracted content copied into the builder. -/
inductive PageRes
  | err
  | nilReader
  | txt (s : String)
deriving DecidableEq, Repr

/-- The content a page contributes to the document text, if any. -/
def PageRes.content : PageRes → Option String
  | .txt s => some s
  | _ => none

/-- The index store state: a finite map from document identifier to
`Document`, as an association list with distinct keys maintained by
`insert`.  Modelled from the spec: bleve's store maps document identifiers
to their indexed representation; its internal tokenized layout is opaque
and irrelevant to the claims, which only concern which documents sit under
which identifiers. -/
structure Store where
  docs : List (String × Document)
deriving DecidableEq, Repr

/-- The empty store created by `bleve.New`. -/
def Store.empty : Store := ⟨[]⟩

/-- `index.Index(id, doc)`: upsert.  Modelled from the spec: insertion into
the store is insertion-or-overwrite under the document identifier. -/
def Store.insert (s : Store) (id : String) (d : Document) : Store :=
  ⟨(id, d) :: s.docs.filter (fun p => !(p.1 == id))⟩

/-- Document stored under an identifier, if any. -/
def Store.lookup (s : Store) (id : String) : Option Document :=
  (s.docs.find? (fun p => p.1 == id)).map Prod.snd

/-- On-disk state of the index location, distinguishing the cases the
open-or-create logic of `openIndex` reacts to. -/
inductive LocState
  | absent
  | intact (s : Store)
  | corrupt
deriving DecidableEq, Repr

/-- `bleve.Open(indexPath)`.  Modelled from the spec: opening a missing
location fails (with the not-exists error), opening a corrupt or
unreadable location fails with a different error, opening an intact
location yields its store. -/
def bleveOpen : LocState → Except Err Store
  | .absent => .error .openNotExist
  | .corrupt => .error .corrupt
  | .intact s => .ok s

/-- `bleve.New(indexPath, mapping)`.  Modelled from the spec: creating at a
fresh location yields a new empty store; creating where the path already
exists (intact or corrupt) fails with the path-exists error. -/
def bleveNew : LocState → Except Err Store
  | .absent => .ok Store.empty
  | .intact _ => .error .indexPathExists
  | .corrupt => .error .indexPathExists

/-- A bleve search request as `main` assembles it: the query string handed
to `bleve.NewQueryStringQuery`, and whether `searchRequest.Highlight` was
set (`bleve.NewHighlightWithStyle(ansi.Name)`). -/
structure SearchRequest where
  query : String
  highlight : Bool
deriving DecidableEq, Repr

/-- Observable operations on the index store. -/
inductive StoreEv
  | openAttempt
  | createAttempt
  | insert (id : String) (doc : Document)
  | search (req : SearchRequest)
deriving DecidableEq, Repr

/-- Whether an event is a search submission. -/
def StoreEv.isSearch : StoreEv → Bool
  | .search _ => true
  | _ => false

/-- Whether an event is a document insertion. -/
def StoreEv.isInsert : StoreEv → Bool
  | .insert _ _ => true
  | _ => false

/-- Command-line inputs: `-v`, `-vv`, `-pdf`, `-bibtex`, and the
positional arguments `flag.Args()`. -/
structure Flags where
  verbose : Bool
  verbose2 : Bool
  pdfFile : String
  bibtexFile : String
  args : List String
deriving DecidableEq, Repr

/-- Oracle results of the external capabilities for one invocation. -/
structure World where
  /-- On-disk state of `indexPath` when the run starts. -/
  loc : LocState
  /-- Result of `filepath.Abs(pdfFile)`. -/
  absRes : Except Err String
  /-- Result of `pdfcpuapi.ReadContextFile(pdfFile)`. -/
  readCtx : Except Err Unit
  /-- Result of `ctx.EnsurePageCount()`; on success, the per-page outcomes
  of `ctx.ExtractPageContent(i)` for pages `1 .. ctx.PageCount` in order. -/
  ensurePages : Except Err (List PageRes)
  /-- Result of `os.Open(bibtexFile)`. -/
  bibOpen : Except Err Unit
  /-- Result of `bibtex.Parse` on the opened file. -/
  bibParse : Except Err BibTex
  /-- `index.Search(searchRequest)`: the rendered result printed by
  `fmt.Println(result)`, or a search error. -/
  searchRender : SearchRequest → Store → Except Err String

/-- Everything one invocation observably does: lines printed to standard
output, log lines reaching standard error, store operations, the final
on-disk state, and whether the process finished normally (`false` means it
panicked). -/
structure Trace where
  stdoutLines : List String
  stderrLines : List String
  storeEvents : List StoreEv
  finalLoc : LocState
  exitOk : Bool
deriving Repr

/-- The logger from `init`: messages reach `os.Stderr` only when `-v` or
`-vv` is set, otherwise the writer is `ioutil.Discard`. -/
def gatedLog (fl : Flags) (msgs : List String) : List String :=
  if fl.verbose || fl.verbose2 then msgs else []

/-- `func openIndex() (bleve.Index, error)`: try `bleve.Open`; on any open
error, log and try `bleve.New`; surface only the creation error.  Returns
the result, the on-disk state afterwards, the log messages submitted, and
the store events. -/
def openIndex (loc : LocState) :
    Except Err Store × LocState × List String × List StoreEv :=
  match bleveOpen loc with
  | .ok idx =>
      (.ok idx, loc,
       ["Opening index file", "Index loaded successfully."],
       [.openAttempt])
  | .error _ =>
      match bleveNew loc with
      | .ok idx =>
          (.ok idx, .intact Store.empty,
           ["Opening index file", "Open failed, creating index.",
            "Index loaded successfully."],
           [.openAttempt, .createAttempt])
      | .error e =>
          (.error e, loc,
           ["Opening index file", "Open failed, creating index."],
           [.openAttempt, .createAttempt])

/-- The page loop of `parseDocument`: `for i := 1; i <= ctx.PageCount; i++`
appending each page's extracted content to the `strings.Builder`, skipping
`nil` readers, failing on the first page error. -/
def extractPages : List PageRes → Except Err String
  | [] => .ok ""
  | .err :: _ => .error .pageExtractErr
  | .nilReader :: rest => extractPages rest
  | .txt s :: rest =>
      match extractPages rest with
      | .ok t => .ok (s ++ t)
      | .error e => .error e

/-- `func parseDocument() (*Document, error)`: read the PDF context,
ensure the page count, run the page loop, then (only when a bibtex path
was given) open and parse the bibliography; the first error aborts.
Returns the result and the log messages submitted. -/
def parseDocument (pdfFile bibtexFile : String) (readCtx : Except Err Unit)
    (ensurePages : Except Err (List PageRes)) (bibOpen : Except Err Unit)
    (bibParse : Except Err BibTex) : Except Err Document × List String :=
  let log1 := ["Opening PDF file: " ++ pdfFile]
  match readCtx with
  | .error e => (.error e, log1)
  | .ok _ =>
      let log2 := log1 ++ ["Parsing PDF file: " ++ pdfFile]
      match ensurePages with
      | .error e => (.error e, log2)
      | .ok pages =>
          match extractPages pages with
          | .error e => (.error e, log2)
          | .ok txt =>
              if bibtexFile == "" then
                (.ok ⟨none, txt⟩, log2)
              else
                let log3 := log2 ++
                  ["Attempting to parse BibTeX file: " ++ bibtexFile]
                match bibOpen with
                | .error e => (.error e, log3)
                | .ok _ =>
                    match bibParse with
                    | .error e => (.error e, log3)
                    | .ok ref => (.ok ⟨some ref, txt⟩, log3)

/-- `func addEntry(index bleve.Index) error`: resolve `filepath.Abs`,
parse the document, then `index.Index(absPath, doc)`.  Takes the already
computed `parseDocument` outcome (result and its logs), which is only used
when `filepath.Abs` succeeded, exactly as in the source.  Returns the
result, the store afterwards, the log messages submitted, and the store
events. -/
def addEntry (absRes : Except Err String)
    (dp : Except Err Document × List String) (st : Store) :
    Except Err Unit × Store × List String × List StoreEv :=
  match absRes with
  | .error e => (.error e, st, [], [])
  | .ok absPath =>
      match dp.1 with
      | .error e => (.error e, st, dp.2, [])
      | .ok doc =>
          (.ok (), st.insert absPath doc,
           dp.2 ++ ["Updating index file with new entry."],
           [.insert absPath doc])

/-- `strings.ReplaceAll(s, "~", "-")` for the single-character pattern used
in `main`: character-wise replacement of `~` by `-`. -/
def goReplaceTilde (s : String) : String :=
  ⟨s.data.map (fun c => if c == '~' then '-' else c)⟩

/-- `strings.Join(args, " ")`. -/
def joinArgs (args : List String) : String :=
  String.intercalate " " args

/-- `func main()`: open or create the index (panic on failure); if `-pdf`
was given run `addEntry` and return (panic on failure); otherwise, with no
positional arguments log and return; otherwise build the query string with
the tilde rewrite, set highlighting only under `-vv`, search (panic on
failure) and print the result to standard output. -/
def main (fl : Flags) (w : World) : Trace :=
  let o := openIndex w.loc
  match o.1 with
  | .error _ =>
      { stdoutLines := [], stderrLines := gatedLog fl o.2.2.1,
        storeEvents := o.2.2.2, finalLoc := o.2.1, exitOk := false }
  | .ok idx =>
      if fl.pdfFile == "" then
        match fl.args with
        | [] =>
            { stdoutLines := [],
              stderrLines := gatedLog fl (o.2.2.1 ++ ["No query given, leaving."]),
              storeEvents := o.2.2.2, finalLoc := o.2.1, exitOk := true }
        | _ :: _ =>
            let req : SearchRequest :=
              ⟨goReplaceTilde (joinArgs fl.args), fl.verbose2⟩
            match w.searchRender req idx with
            | .error _ =>
                { stdoutLines := [], stderrLines := gatedLog fl o.2.2.1,
                  storeEvents := o.2.2.2 ++ [.search req],
                  finalLoc := o.2.1, exitOk := false }
            | .ok r =>
                { stdoutLines := [r], stderrLines := gatedLog fl o.2.2.1,
                  storeEvents := o.2.2.2 ++ [.search req],
                  finalLoc := o.2.1, exitOk := true }
      else
        let dp := parseDocument fl.pdfFile fl.bibtexFile w.readCtx
          w.ensurePages w.bibOpen w.bibParse
        let ae := addEntry w.absRes dp idx
        match ae.1 with
        | .error _ =>
            { stdoutLines := [], stderrLines := gatedLog fl (o.2.2.1 ++ ae.2.2.1),
              storeEvents := o.2.2.2 ++ ae.2.2.2, finalLoc := o.2.1,
              exitOk := false }
        | .ok _ =>
            { stdoutLines := [], stderrLines := gatedLog fl (o.2.2.1 ++ ae.2.2.1),
              storeEvents := o.2.2.2 ++ ae.2.2.2,
              finalLoc := .intact ae.2.1, exitOk := true }

/-- The PDF extraction stage of `parseDocument` in isolation:
`ReadContextFile`, then `EnsurePageCount`, then the page loop.  Used to
phrase "PDF text extraction fails". -/
def pdfTextRes (readCtx : Except Err Unit)
    (ensurePages : Except Err (List PageRes)) : Except Err String :=
  match readCtx with
  | .error e => .error e
  | .ok _ =>
      match ensurePages with
      | .error e => .error e
      | .ok pages => extractPages pages

/-- In-order concatenation of a list of strings. -/
def concatAll : List String → String
  | [] => ""
  | s :: rest => s ++ concatAll rest

/-- A world whose index location holds no prior data and whose external
capabilities all succeed. -/
def emptyWorld : World :=
  { loc := .absent, absRes := .ok "/home/u/doc.pdf", readCtx := .ok (),
    ensurePages := .ok [.txt "alpha ", .nilReader, .txt "beta"],
    bibOpen := .ok (), bibParse := .ok ⟨"@article"⟩,
    searchRender := fun _ _ => .ok "results" }

/-- A world whose index location holds an intact empty store. -/
def intactWorld : World :=
  { loc := .intact Store.empty, absRes := .ok "/home/u/doc.pdf",
    readCtx := .ok (), ensurePages := .ok [.txt "alpha ", .nilReader, .txt "beta"],
    bibOpen := .ok (), bibParse := .ok ⟨"@article"⟩,
    searchRender := fun _ _ => .ok "results" }

/-! ## Helper lemmas -/

theorem openIndex_any_search (loc : LocState) :
    ((openIndex loc).2.2.2.any StoreEv.isSearch) = false := by
  cases loc <;> rfl

theorem openIndex_any_insert (loc : LocState) :
    ((openIndex loc).2.2.2.any StoreEv.isInsert) = false := by
  cases loc <;> rfl

theorem openIndex_mem_evs (loc : LocState) (e : StoreEv)
    (h : e ∈ (openIndex loc).2.2.2) :
    e = StoreEv.openAttempt ∨ e = StoreEv.createAttempt := by
  cases loc <;> simp [openIndex, bleveOpen, bleveNew] at h <;> tauto

theorem addEntry_any_search (a : Except Err String)
    (dp : Except Err Document × List String) (st : Store) :
    ((addEntry a dp st).2.2.2.any StoreEv.isSearch) = false := by
  rcases a with ea | ap
  · rfl
  · rcases hd : dp.1 with ed | doc <;> simp [addEntry, hd, StoreEv.isSearch]

theorem addEntry_any_insert (a : Except Err String)
    (dp : Except Err Document × List String) (st : Store) :
    ((addEntry a dp st).2.2.2.any StoreEv.isInsert) = (exOk a && exOk dp.1) := by
  rcases a with ea | ap
  · rfl
  · rcases hd : dp.1 with ed | doc <;> simp [addEntry, hd, StoreEv.isInsert, exOk]

theorem addEntry_mem_evs {a : Except Err String}
    {dp : Except Err Document × List String} {st : Store} {e : StoreEv}
    (h : e ∈ (addEntry a dp st).2.2.2) : ∃ id doc, e = StoreEv.insert id doc := by
  rcases a with ea | ap
  · simp [addEntry] at h
  · rcases hd : dp.1 with ed | doc <;> simp [addEntry, hd] at h
    exact ⟨ap, doc, h⟩

theorem parseDocument_err (pf bf : String) (rc : Except Err Unit)
    (ep : Except Err (List PageRes)) (bo : Except Err Unit) (bp : Except Err BibTex)
    (h : exOk (pdfTextRes rc ep) = false ∨ (bf ≠ "" ∧ exOk bp = false)) :
    exOk (parseDocument pf bf rc ep bo bp).1 = false := by
  rcases rc with e | u
  · rfl
  · rcases ep with e | pages
    · rfl
    · rcases hx : extractPages pages with e | txt
      · simp [parseDocument, hx, exOk]
      · have hok : exOk (pdfTextRes (Except.ok u) (Except.ok pages)) = true := by
          simp [pdfTextRes, hx, exOk]
        rcases h with h | ⟨hbf, hbp⟩
        · rw [hok] at h; exact absurd h (by simp)
        · have hbf2 : (bf == "") = false := by simpa using hbf
          rcases bo with e | u2
          · simp [parseDocument, hx, hbf2, exOk]
          · rcases hb : bp with e | r
            · simp [parseDocument, hx, hbf2, hb, exOk]
            · rw [hb] at hbp; exact absurd hbp (by simp [exOk])

theorem addEntry_err (a : Except Err String)
    (dp : Except Err Document × List String) (st : Store)
    (h : exOk dp.1 = false) :
    exOk (addEntry a dp st).1 = false ∧ (addEntry a dp st).2.1 = st := by
  rcases a with ea | ap
  · exact ⟨rfl, rfl⟩
  · rcases hd : dp.1 with ed | doc
    · simp [addEntry, hd, exOk]
    · rw [hd] at h; exact absurd h (by simp [exOk])

theorem countP_insert_key (l : List (String × Document)) (a : String) (d : Document) :
    (((a, d) :: l.filter (fun p => !(p.1 == a))).countP (fun p => p.1 == a)) = 1 := by
  rw [List.countP_cons_of_pos _ _ (by simp)]
  have h0 : ((l.filter (fun p => !(p.1 == a))).countP (fun p => p.1 == a)) = 0 := by
    rw [List.countP_eq_zero]
    intro x hx
    have := List.of_mem_filter hx
    simpa using this
  omega

theorem extractPages_ok {pages : List PageRes} {t : String}
    (h : extractPages pages = .ok t) :
    t = concatAll (pages.filterMap PageRes.content) := by
  induction pages generalizing t with
  | nil =>
      simp [extractPages] at h
      simp [h, concatAll]
  | cons p rest ih =>
      cases p with
      | err => simp [extractPages] at h
      | nilReader =>
          simp [extractPages] at h
          simpa [PageRes.content] using ih h
      | txt s =>
          rcases hr : extractPages rest with e | t2
          · rw [extractPages, hr] at h; exact absurd h (by simp)
          · rw [extractPages, hr] at h
            cases h
            simp [PageRes.content, concatAll, ih hr]

/-! ## Claims -/

/-- C4: opening the index store at a location with no prior data does not
fail: `openIndex` on an absent location returns a new empty store and the
location afterwards holds that intact empty store. -/
theorem c4_open_absent_creates :
    (openIndex LocState.absent).1 = .ok Store.empty
  ∧ (openIndex LocState.absent).2.1 = .intact Store.empty :=
  ⟨rfl, rfl⟩

/-- C5 counterexample: on a corrupt location, `bleve.Open` fails with the
corruption error, but `openIndex` surfaces the creation attempt's
path-exists error instead — the distinct open error is not the error the
caller receives. -/
theorem c5_open_error_swallowed :
    bleveOpen LocState.corrupt = .error Err.corrupt
  ∧ (openIndex LocState.corrupt).1 = .error Err.indexPathExists
  ∧ Err.indexPathExists ≠ Err.corrupt := by
  refine ⟨rfl, rfl, ?_⟩
  decide

/-- C5 amended: an open failure other than "store absent" still surfaces an
error (never a silent success), but it is the creation attempt's
path-exists error, the original open error having been discarded; the
absent case instead yields a new empty store, so the two outcomes remain
distinct. -/
theorem c5_nonabsent_open_failure_errors (loc : LocState) (e : Err)
    (hopen : bleveOpen loc = .error e) (hne : e ≠ Err.openNotExist) :
    (openIndex loc).1 = .error Err.indexPathExists
  ∧ (openIndex LocState.absent).1 = .ok Store.empty := by
  cases loc with
  | absent =>
      rw [bleveOpen] at hopen
      cases hopen
      exact absurd rfl hne
  | intact s => exact absurd hopen (by simp [bleveOpen])
  | corrupt => exact ⟨rfl, rfl⟩

/-- C5 witness: the amended theorem applied at the corrupt location. -/
theorem c5_nonabsent_open_failure_errors_witness :
    (openIndex LocState.corrupt).1 = .error Err.indexPathExists
  ∧ (openIndex LocState.absent).1 = .ok Store.empty :=
  c5_nonabsent_open_failure_errors LocState.corrupt Err.corrupt rfl (by decide)

/-- C3: if PDF text extraction fails, or a bibliography path was supplied
and its parse fails, `addEntry` fails and the store is left exactly as it
was — no insertion happens. -/
theorem c3_ingest_atomic (pf bf : String) (rc : Except Err Unit)
    (ep : Except Err (List PageRes)) (bo : Except Err Unit)
    (bp : Except Err BibTex) (aRes : Except Err String) (st : Store)
    (h : exOk (pdfTextRes rc ep) = false ∨ (bf ≠ "" ∧ exOk bp = false)) :
    exOk (addEntry aRes (parseDocument pf bf rc ep bo bp) st).1 = false
  ∧ (addEntry aRes (parseDocument pf bf rc ep bo bp) st).2.1 = st :=
  addEntry_err _ _ _ (parseDocument_err pf bf rc ep bo bp h)

/-- C3 witness: a failing `ReadContextFile` leaves a one-document store
unchanged and makes the ingestion fail. -/
theorem c3_ingest_atomic_witness :
    exOk (addEntry (.ok "/home/u/doc.pdf")
        (parseDocument "doc.pdf" "" (.error Err.pdfReadErr) (.ok []) (.ok ()) (.ok ⟨""⟩))
        ⟨[("/prior", ⟨none, "old"⟩)]⟩).1 = false
  ∧ (addEntry (.ok "/home/u/doc.pdf")
        (parseDocument "doc.pdf" "" (.error Err.pdfReadErr) (.ok []) (.ok ()) (.ok ⟨""⟩))
        ⟨[("/prior", ⟨none, "old"⟩)]⟩).2.1 = ⟨[("/prior", ⟨none, "old"⟩)]⟩ :=
  c3_ingest_atomic "doc.pdf" "" (.error Err.pdfReadErr) (.ok []) (.ok ()) (.ok ⟨""⟩)
    (.ok "/home/u/doc.pdf") ⟨[("/prior", ⟨none, "old"⟩)]⟩ (Or.inl (by decide))

/-- C6: the identifier under which `addEntry` stores a document is the
resolved absolute path, and ingesting under the same identifier twice
leaves exactly one document there, holding the second ingestion's content
— full overwrite, no duplicate, no merge. -/
theorem c6_overwrite (st : Store) (a : String) (d1 d2 : Document)
    (l1 l2 : List String) :
    (addEntry (.ok a) (.ok d1, l1) st).2.1 = st.insert a d1
  ∧ (addEntry (.ok a) (.ok d2, l2) (st.insert a d1)).2.1 = (st.insert a d1).insert a d2
  ∧ ((st.insert a d1).insert a d2).lookup a = some d2
  ∧ (((st.insert a d1).insert a d2).docs.countP (fun p => p.1 == a)) = 1 := by
  refine ⟨rfl, rfl, ?_, ?_⟩
  · simp [Store.lookup, Store.insert, List.find?]
  · exact countP_insert_key _ _ _

/-- C9: when `parseDocument` succeeds, the stored text is the in-order
concatenation of the extracted content of the pages, a page with a nil
reader contributing nothing; skipping a nil page never changes the
extraction outcome. -/
theorem c9_page_concat (pf bf : String) (pages : List PageRes)
    (bo : Except Err Unit) (bp : Except Err BibTex) (d : Document)
    (h : (parseDocument pf bf (.ok ()) (.ok pages) bo bp).1 = .ok d) :
    d.txt = concatAll (pages.filterMap PageRes.content)
  ∧ extractPages (PageRes.nilReader :: pages) = extractPages pages := by
  refine ⟨?_, rfl⟩
  rcases hx : extractPages pages with e | txt
  · rw [parseDocument] at h
    simp only [hx] at h
    exact absurd h (by simp)
  · have htxt : d.txt = txt := by
      rw [parseDocument] at h
      simp only [hx] at h
      by_cases hbf : (bf == "") = true
      · simp only [hbf, if_pos rfl] at h
        cases h
        rfl
      · simp only [Bool.not_eq_true] at hbf
        simp only [hbf] at h
        rcases bo with e | u
        · exact absurd h (by simp)
        · rcases bp with e | r
          · exact absurd h (by simp)
          · cases h
            rfl
    rw [htxt]
    exact extractPages_ok hx

/-- C9 witness: a three-page PDF with a nil middle page yields the
concatenation of the other two pages. -/
theorem c9_page_concat_witness :
    (Document.mk none "alpha beta").txt
      = concatAll (([PageRes.txt "alpha ", PageRes.nilReader, PageRes.txt "beta"]).filterMap PageRes.content)
  ∧ extractPages (PageRes.nilReader :: [PageRes.txt "alpha ", PageRes.nilReader, PageRes.txt "beta"])
      = extractPages [PageRes.txt "alpha ", PageRes.nilReader, PageRes.txt "beta"] :=
  c9_page_concat "doc.pdf" "" [PageRes.txt "alpha ", PageRes.nilReader, PageRes.txt "beta"]
    (.ok ()) (.ok ⟨""⟩) (Document.mk none "alpha beta") (by decide)

/-- C1 counterexample: an invocation with no query terms and no pdf flag
(on an absent index location, all externals succeeding) still opens the
index store and, finding it absent, creates it. -/
theorem c1_noop_still_opens_store :
    StoreEv.openAttempt ∈ (main ⟨false, false, "", "", []⟩ emptyWorld).storeEvents
  ∧ StoreEv.createAttempt ∈ (main ⟨false, false, "", "", []⟩ emptyWorld).storeEvents := by
  decide

/-- C1 amended: with no query terms and no pdf flag the run performs no
search and no insertion and prints nothing to standard output — but the
index store is still opened (and created if absent), because `main` opens
the index before dispatching on the mode. -/
theorem c1_noop_no_search_no_insert (fl : Flags) (w : World)
    (hp : fl.pdfFile = "") (ha : fl.args = []) :
    ((main fl w).storeEvents.any StoreEv.isSearch) = false
  ∧ ((main fl w).storeEvents.any StoreEv.isInsert) = false
  ∧ (main fl w).stdoutLines = [] := by
  have hs := openIndex_any_search w.loc
  have hi := openIndex_any_insert w.loc
  rcases ho : openIndex w.loc with ⟨res, loc1, logs, evs⟩
  rw [ho] at hs hi
  dsimp at hs hi
  unfold main
  rw [ho]
  have hq : (fl.pdfFile == "") = true := by simp [hp]
  cases res with
  | error e => exact ⟨hs, hi, rfl⟩
  | ok idx => simp [hq, ha, hs, hi]

/-- C1 amended witness: the amended theorem at the no-argument invocation
on an absent store. -/
theorem c1_noop_no_search_no_insert_witness :
    ((main ⟨false, false, "", "", []⟩ emptyWorld).storeEvents.any StoreEv.isSearch) = false
  ∧ ((main ⟨false, false, "", "", []⟩ emptyWorld).storeEvents.any StoreEv.isInsert) = false
  ∧ (main ⟨false, false, "", "", []⟩ emptyWorld).stdoutLines = [] :=
  c1_noop_no_search_no_insert ⟨false, false, "", "", []⟩ emptyWorld rfl rfl

/-- C2 counterexample: with the single query term `a~b`, the space-joined
concatenation of the terms is `a~b`, yet the query string submitted to the
store is `a-b` — the tilde was rewritten to a hyphen. -/
theorem c2_tilde_rewritten :
    joinArgs ["a~b"] = "a~b"
  ∧ (main ⟨false, false, "", "", ["a~b"]⟩ intactWorld).storeEvents
      = [StoreEv.openAttempt, StoreEv.search ⟨"a-b", false⟩]
  ∧ "a-b" ≠ "a~b" := by
  refine ⟨by decide, by decide, by decide⟩

/-- C2 amended: the query string submitted to the query parser is the
space-joined concatenation of the CLI terms with every `~` character
replaced by `-`; no other rewriting is applied. -/
theorem c2_query_string_submitted (fl : Flags) (w : World) (idx : Store)
    (hopen : (openIndex w.loc).1 = .ok idx) (hp : fl.pdfFile = "")
    (ha : fl.args ≠ []) :
    StoreEv.search ⟨goReplaceTilde (joinArgs fl.args), fl.verbose2⟩
      ∈ (main fl w).storeEvents := by
  rcases ho : openIndex w.loc with ⟨res, loc1, logs, evs⟩
  rw [ho] at hopen
  dsimp at hopen
  subst hopen
  unfold main
  rw [ho]
  have hq : (fl.pdfFile == "") = true := by simp [hp]
  cases hargs : fl.args with
  | nil => exact absurd hargs ha
  | cons x xs =>
      rcases hsr : w.searchRender ⟨goReplaceTilde (joinArgs (x :: xs)), fl.verbose2⟩ idx with e | r <;>
        simp [hq, hargs, hsr]

/-- C2 amended witness: the amended theorem at the single term `a~b` on an
intact empty store. -/
theorem c2_query_string_submitted_witness :
    StoreEv.search ⟨goReplaceTilde (joinArgs ["a~b"]), false⟩
      ∈ (main ⟨false, false, "", "", ["a~b"]⟩ intactWorld).storeEvents :=
  c2_query_string_submitted ⟨false, false, "", "", ["a~b"]⟩ intactWorld Store.empty
    rfl rfl (by decide)

/-- C7: a search is submitted exactly when no pdf flag was given, query
terms are present, and the index opened; an insertion happens exactly when
the pdf flag was given, the index opened, the path resolved and the
document parsed — so the pdf flag takes precedence and at most one mode
runs per invocation. -/
theorem c7_one_mode (fl : Flags) (w : World) :
    ((main fl w).storeEvents.any StoreEv.isSearch)
      = ((fl.pdfFile == "") && !fl.args.isEmpty && exOk (openIndex w.loc).1)
  ∧ ((main fl w).storeEvents.any StoreEv.isInsert)
      = (!(fl.pdfFile == "") && exOk (openIndex w.loc).1 && exOk w.absRes
         && exOk (parseDocument fl.pdfFile fl.bibtexFile w.readCtx w.ensurePages w.bibOpen w.bibParse).1) := by
  have hs := openIndex_any_search w.loc
  have hi := openIndex_any_insert w.loc
  rcases ho : openIndex w.loc with ⟨res, loc1, logs, evs⟩
  rw [ho] at hs hi
  dsimp at hs hi
  unfold main
  rw [ho]
  constructor
  · cases res with
    | error e => simp [exOk, hs]
    | ok idx =>
        cases hq : fl.pdfFile == "" with
        | false =>
            rcases hae : (addEntry w.absRes (parseDocument fl.pdfFile fl.bibtexFile w.readCtx w.ensurePages w.bibOpen w.bibParse) idx).1 with e | u <;>
              simp [hq, hae, List.any_append, hs, addEntry_any_search]
        | true =>
            cases ha : fl.args with
            | nil => simp [hq, ha, hs]
            | cons x xs =>
                rcases hsr : w.searchRender ⟨goReplaceTilde (joinArgs (x :: xs)), fl.verbose2⟩ idx with e | r <;>
                  simp [hq, ha, hsr, exOk, hs, List.any_append, StoreEv.isSearch]
  · cases res with
    | error e => simp [exOk, hi]
    | ok idx =>
        have hai := addEntry_any_insert w.absRes
          (parseDocument fl.pdfFile fl.bibtexFile w.readCtx w.ensurePages w.bibOpen w.bibParse) idx
        cases hq : fl.pdfFile == "" with
        | true =>
            cases ha : fl.args with
            | nil => simp [hq, ha, hi]
            | cons x xs =>
                rcases hsr : w.searchRender ⟨goReplaceTilde (joinArgs (x :: xs)), fl.verbose2⟩ idx with e | r <;>
                  simp [hq, ha, hsr, hi, List.any_append, StoreEv.isInsert]
        | false =>
            rcases hae : (addEntry w.absRes (parseDocument fl.pdfFile fl.bibtexFile w.readCtx w.ensurePages w.bibOpen w.bibParse) idx).1 with e | u <;>
              simp [hq, hae, List.any_append, hi, hai, exOk]

/-- C8: log messages reach standard error only when a verbosity flag is
set; ingestion mode prints nothing to standard output; query mode prints
exactly the rendered result set to standard output; a no-op invocation
prints nothing to standard output. -/
theorem c8_output_discipline (fl : Flags) (w : World) :
    (fl.verbose = false → fl.verbose2 = false → (main fl w).stderrLines = [])
  ∧ (fl.pdfFile ≠ "" → (main fl w).stdoutLines = [])
  ∧ (∀ idx r, fl.pdfFile = "" → fl.args ≠ [] →
      (openIndex w.loc).1 = .ok idx →
      w.searchRender ⟨goReplaceTilde (joinArgs fl.args), fl.verbose2⟩ idx = .ok r →
      (main fl w).stdoutLines = [r])
  ∧ (fl.pdfFile = "" → fl.args = [] → (main fl w).stdoutLines = []) := by
  rcases ho : openIndex w.loc with ⟨res, loc1, logs, evs⟩
  unfold main
  rw [ho]
  refine ⟨?_, ?_, ?_, ?_⟩
  · intro hv hv2
    cases res with
    | error e => simp [gatedLog, hv, hv2]
    | ok idx =>
        cases hq : fl.pdfFile == "" with
        | true =>
            cases hargs : fl.args with
            | nil => simp [hq, hargs, gatedLog, hv, hv2]
            | cons x xs =>
                rcases hsr : w.searchRender ⟨goReplaceTilde (joinArgs (x :: xs)), fl.verbose2⟩ idx with e | r <;>
                  simp only [hq, hargs, hsr] <;> simp [gatedLog, hv, hv2]
        | false =>
            rcases hae : (addEntry w.absRes (parseDocument fl.pdfFile fl.bibtexFile w.readCtx w.ensurePages w.bibOpen w.bibParse) idx).1 with e | u <;>
              simp only [hq, hae] <;> simp [gatedLog, hv, hv2]
  · intro hp
    have hq : (fl.pdfFile == "") = false := by simpa using hp
    cases res with
    | error e => rfl
    | ok idx =>
        rcases hae : (addEntry w.absRes (parseDocument fl.pdfFile fl.bibtexFile w.readCtx w.ensurePages w.bibOpen w.bibParse) idx).1 with e | u <;>
          simp [hq, hae]
  · intro idx r hp hargs hopen hsr
    dsimp at hopen
    subst hopen
    have hq : (fl.pdfFile == "") = true := by simp [hp]
    cases ha : fl.args with
    | nil => exact absurd ha hargs
    | cons x xs =>
        rw [ha] at hsr
        simp [hq, ha, hsr]
  · intro hp hargs
    have hq : (fl.pdfFile == "") = true := by simp [hp]
    cases res with
    | error e => rfl
    | ok idx => simp [hq, hargs]

/-- C8 witness: a query invocation without verbosity prints exactly the
rendered result set to standard output. -/
theorem c8_output_discipline_witness :
    (main ⟨false, false, "", "", ["alpha"]⟩ intactWorld).stdoutLines = ["results"] :=
  (c8_output_discipline ⟨false, false, "", "", ["alpha"]⟩ intactWorld).2.2.1
    Store.empty "results" rfl (by decide) rfl rfl

/-- C10: any search request the run submits to the store carries
highlighting exactly when the double-verbosity flag is set. -/
theorem c10_highlight_iff_vv (fl : Flags) (w : World) (req : SearchRequest)
    (h : StoreEv.search req ∈ (main fl w).storeEvents) :
    req.highlight = fl.verbose2 := by
  rcases ho : openIndex w.loc with ⟨res, loc1, logs, evs⟩
  have hoev : ∀ e ∈ evs, e = StoreEv.openAttempt ∨ e = StoreEv.createAttempt := by
    intro e he
    exact openIndex_mem_evs w.loc e (by rw [ho]; exact he)
  unfold main at h
  rw [ho] at h
  cases res with
  | error e =>
      dsimp at h
      rcases hoev _ h with h' | h' <;> simp at h'
  | ok idx =>
      cases hq : fl.pdfFile == "" with
      | true =>
          rw [hq] at h
          cases hargs : fl.args with
          | nil =>
              rw [hargs] at h
              dsimp at h
              rcases hoev _ h with h' | h' <;> simp at h'
          | cons x xs =>
              rw [hargs] at h
              dsimp only at h
              rcases hsr : w.searchRender ⟨goReplaceTilde (joinArgs (x :: xs)), fl.verbose2⟩ idx with e | r <;>
                rw [hsr] at h <;> dsimp at h <;>
                rcases List.mem_append.mp h with h1 | h1
              · rcases hoev _ h1 with h' | h' <;> simp at h'
              · rw [List.mem_singleton] at h1
                injection h1 with h2
                rw [h2]
              · rcases hoev _ h1 with h' | h' <;> simp at h'
              · rw [List.mem_singleton] at h1
                injection h1 with h2
                rw [h2]
      | false =>
          rw [hq] at h
          dsimp only at h
          rcases hae : (addEntry w.absRes (parseDocument fl.pdfFile fl.bibtexFile w.readCtx w.ensurePages w.bibOpen w.bibParse) idx).1 with e | u <;>
            rw [hae] at h <;> dsimp at h <;>
            rcases List.mem_append.mp h with h1 | h1
          · rcases hoev _ h1 with h' | h' <;> simp at h'
          · obtain ⟨id, doc, heq⟩ := addEntry_mem_evs h1
            simp at heq
          · rcases hoev _ h1 with h' | h' <;> simp at h'
          · obtain ⟨id, doc, heq⟩ := addEntry_mem_evs h1
            simp at heq

/-- C10 witness: under the double-verbosity flag the submitted request
carries highlighting. -/
theorem c10_highlight_iff_vv_witness :
    SearchRequest.highlight ⟨"alpha", true⟩ = true :=
  c10_highlight_iff_vv ⟨false, true, "", "", ["alpha"]⟩ intactWorld
    ⟨"alpha", true⟩ (by decide)

end Refman
